import Mathlib

/-!
Shallow embedding of the Equinox backend (signup / login / withdraw /
deposit listing / stock update) for checking the natural-language spec.

Sources:
* `src/firestore.js` — the relational-store server (Express handlers that
  run against the SQL adapter in `src/db.js`).
* `src/unnamed/part_001` — the document-store server (the same handlers
  packaged as Firebase Functions, running directly against Firestore).
* `src/db.js` — the relational adapter (`initDb` schema, `getUserProfile`,
  `findAuthByEmail`, the Firestore-shaped `collection` shim).

Modelling conventions:
* JS numbers are modelled as `ℚ`; a request field that `Number(...)` turns
  into `NaN`/`±Infinity` (missing field, non-numeric string) is `none` in an
  `Option ℚ`, a finite value is `some q`.
* Optional string request fields are `Option String`; the JS falsiness test
  `!x` on them is `jsFalsy` (absent or empty string).
* Timestamps are an abstract `ℕ` passed in as `now`.
* `sha256` is not re-implemented: every operation that hashes takes the
  hash function as an explicit parameter `hashPassword : String → String`;
  the theorems hold for every such function (the code only uses that the
  hash is a deterministic function).
* Firestore document collections keyed by id and SQL tables with a primary
  key are both modelled as lists with an upsert-by-key operation
  (`upsertBy`); `doc(id).get` / `SELECT … WHERE pk = $1 LIMIT 1` are
  `List.find?`.
-/

namespace Equinox

deriving instance DecidableEq for Except

/-- Tagged failures of the API operations (spec §7 taxonomy; each tag is the
JSON `error` field of the corresponding handler response). -/
inductive ApiErr where
  | invalidInput
  | emailExists
  | invalidParams
  | userNotFound
  | notFound
  | invalidCredentials
  | insufficientHomeBalance
  | insufficientGasBalance
  | invalidDirection
  | storeFailure
  deriving DecidableEq, Repr

/-- A row of `users` / a document of the `users` collection. -/
structure UserRec where
  uid : String
  email : String
  name : Option String
  created_at : ℕ
  deriving DecidableEq, Repr

/-- A row of `user_auth` / a document of the `user_auth` collection. -/
structure AuthRec where
  uid : String
  email : String
  password_hash : String
  created_at : ℕ
  deriving DecidableEq, Repr

/-- A row of `balances` / a document of the `balances` collection
(keyed by `uid`). -/
structure BalRec where
  uid : String
  balance_usd : ℚ
  wallet_balance_usd : ℚ
  updated_at : ℕ
  deriving DecidableEq, Repr

/-- A row of `deposits` / a document of the `deposits` collection.
The store keeps them in insertion order. -/
structure DepositRec where
  uid : String
  amount_usd : ℚ
  note : String
  created_at : ℕ
  deriving DecidableEq, Repr

/-- A stock quote document of the `stocks` collection (keyed by company),
as written by the document-store server. -/
structure StockRec where
  company : String
  current_price : ℚ
  percentage_change : ℚ
  direction : String
  updated_at : ℕ
  deriving DecidableEq, Repr

/-- The profile shape assembled from a user row plus its balance row
(`db.js getUserProfile`, and the inline `{...userDoc.data(), balance_usd,
wallet_balance_usd}` assemblies in the handlers). -/
structure Profile where
  uid : String
  email : String
  name : Option String
  created_at : ℕ
  balance_usd : ℚ
  wallet_balance_usd : ℚ
  deriving DecidableEq, Repr

/-- The persistent store: the tables/collections the modelled operations
touch. -/
structure Store where
  users : List UserRec
  auths : List AuthRec
  balances : List BalRec
  deposits : List DepositRec
  stocks : List StockRec
  deriving DecidableEq, Repr

/-- JS falsiness of an optional string field: `!x` is true when the field
is absent or the empty string. -/
def jsFalsy : Option String → Bool
  | none => true
  | some s => s == ""

/-- Insert-or-replace keyed by a predicate: both the SQL
`INSERT … ON CONFLICT (pk) DO UPDATE` of `db.js` and Firestore
`doc(id).set(...)` replace the record with the matching key if present,
else add a new one. -/
def upsertBy (p : α → Bool) (new : α) (l : List α) : List α :=
  if l.any p then l.map (fun x => if p x then new else x) else l ++ [new]

/-- The `effectiveHome` computation of the withdraw handlers:
`Number.isFinite(Number(displayedUsd)) && Number(displayedUsd) > home_bal
  ? Number(displayedUsd) : home_bal`. -/
def effectiveHome (home_bal : ℚ) (displayedUsd : Option ℚ) : ℚ :=
  match displayedUsd with
  | some d => if d > home_bal then d else home_bal
  | none => home_bal

/-- Model of `db.js getUserProfile`: load the user row, default a missing balance
row to zeros, return the joined profile (`null` i.e. `none` when the user
row is absent). -/
def getUserProfile (s : Store) (uid : String) : Option Profile :=
  match s.users.find? (fun u => u.uid == uid) with
  | none => none
  | some u =>
      let bal := s.balances.find? (fun b => b.uid == uid)
      some { uid := u.uid, email := u.email, name := u.name,
             created_at := u.created_at,
             balance_usd := match bal with | some b => b.balance_usd | none => 0,
             wallet_balance_usd := match bal with | some b => b.wallet_balance_usd | none => 0 }

/-- Apply `f` to every balance row whose key is `uid` (the effect of
`balanceRef.update({...})` through either adapter; the key is unique in
the real store, so at most one row is touched there). -/
def updateBalance (s : Store) (uid : String) (f : BalRec → BalRec) : Store :=
  { s with balances := s.balances.map (fun b => if b.uid == uid then f b else b) }

/-- Model of `POST /api/withdraw` of `src/firestore.js` (lines 752–833).
`amountUsd`/`gasUsd`/`displayedUsd` are the request body fields after
`Number(...)` coercion (`none` = not a finite number). Returns the tagged
result together with the post-state; every failure path returns before any
write, so it carries the unchanged store. -/
def withdrawFS (s : Store) (uid : String)
    (amountUsd gasUsd displayedUsd : Option ℚ) (now : ℕ) :
    Except ApiErr Unit × Store :=
  match amountUsd, gasUsd with
  | some amount, some gas =>
    if uid = "" ∨ amount ≤ 0 ∨ gas < 0 then (.error .invalidParams, s)
    else
      match s.balances.find? (fun b => b.uid == uid) with
      | none => (.error .userNotFound, s)
      | some balanceData =>
        let gas_bal := balanceData.balance_usd
        let home_bal := balanceData.wallet_balance_usd
        let eff := effectiveHome home_bal displayedUsd
        if eff < amount then (.error .insufficientHomeBalance, s)
        else if gas_bal < gas then (.error .insufficientGasBalance, s)
        else
          -- bump wallet_balance_usd up to the displayed value first
          let s1 := if eff > home_bal then
              updateBalance s uid (fun b =>
                { b with wallet_balance_usd := b.wallet_balance_usd + (eff - home_bal),
                         updated_at := now })
            else s
          -- deduct amount from wallet; deduct gas from balance_usd only if gas > 0
          -- (the gas = 0 branch re-writes the previously read balance_usd)
          let s2 := updateBalance s1 uid (fun b =>
              { b with wallet_balance_usd := b.wallet_balance_usd - amount,
                       balance_usd := if gas > 0 then b.balance_usd - gas else gas_bal,
                       updated_at := now })
          let s3 := { s2 with deposits :=
              (s2.deposits ++ [{ uid := uid, amount_usd := -amount, note := "withdraw", created_at := now }]) }
          let s4 := if gas > 0 then
              { s3 with deposits :=
                  (s3.deposits ++ [{ uid := uid, amount_usd := -gas, note := "gas_fee", created_at := now }]) }
            else s3
          (.ok (), s4)
  | _, _ => (.error .invalidParams, s)

/-- Model of `POST /withdraw` of `src/unnamed/part_001` (lines 487–563): the
Firebase Functions copy of the withdraw handler; its body is
character-for-character the same algorithm as `/api/withdraw`. -/
def withdrawFN (s : Store) (uid : String)
    (amountUsd gasUsd displayedUsd : Option ℚ) (now : ℕ) :
    Except ApiErr Unit × Store :=
  match amountUsd, gasUsd with
  | some amount, some gas =>
    if uid = "" ∨ amount ≤ 0 ∨ gas < 0 then (.error .invalidParams, s)
    else
      match s.balances.find? (fun b => b.uid == uid) with
      | none => (.error .userNotFound, s)
      | some balanceData =>
        let gas_bal := balanceData.balance_usd
        let home_bal := balanceData.wallet_balance_usd
        let eff := effectiveHome home_bal displayedUsd
        if eff < amount then (.error .insufficientHomeBalance, s)
        else if gas_bal < gas then (.error .insufficientGasBalance, s)
        else
          let s1 := if eff > home_bal then
              updateBalance s uid (fun b =>
                { b with wallet_balance_usd := b.wallet_balance_usd + (eff - home_bal),
                         updated_at := now })
            else s
          let s2 := updateBalance s1 uid (fun b =>
              { b with wallet_balance_usd := b.wallet_balance_usd - amount,
                       balance_usd := if gas > 0 then b.balance_usd - gas else gas_bal,
                       updated_at := now })
          let s3 := { s2 with deposits :=
              (s2.deposits ++ [{ uid := uid, amount_usd := -amount, note := "withdraw", created_at := now }]) }
          let s4 := if gas > 0 then
              { s3 with deposits :=
                  (s3.deposits ++ [{ uid := uid, amount_usd := -gas, note := "gas_fee", created_at := now }]) }
            else s3
          (.ok (), s4)
  | _, _ => (.error .invalidParams, s)

/-- Model of `POST /api/signup` of `src/firestore.js` (lines 172–206), with the
`db.js` helpers it calls (`findAuthByEmail`, `createUserRecord`,
`createAuthRecord`, `upsertBalance`, `addDeposit`, `getUserProfile`)
inlined. `newUid` is the freshly generated
`'uid_' + random + time` string and `now` the timestamp. Failure paths
return before any write. -/
def signupFS (hashPassword : String → String) (s : Store)
    (email name password : Option String) (newUid : String) (now : ℕ) :
    Except ApiErr (Option Profile) × Store :=
  match email, password with
  | some e, some p =>
    -- `!email || !password || password.length < 6` (absent fields land in the
    -- catch-all arm below)
    if e = "" ∨ p = "" ∨ p.length < 6 then (.error .invalidInput, s)
    else
      match s.auths.find? (fun a => a.email == e) with
      | some _ => (.error .emailExists, s)
      | none =>
        let passwordHash := hashPassword p
        let s1 := { s with users :=
            (upsertBy (fun u => u.uid == newUid)
              { uid := newUid, email := e, name := name, created_at := now } s.users) }
        let s2 := { s1 with auths :=
            (upsertBy (fun a => a.uid == newUid)
              { uid := newUid, email := e, password_hash := passwordHash, created_at := now } s1.auths) }
        let s3 := { s2 with balances :=
            (upsertBy (fun b => b.uid == newUid)
              { uid := newUid, balance_usd := 0, wallet_balance_usd := 0, updated_at := now } s2.balances) }
        let s4 := { s3 with deposits :=
            (s3.deposits ++ [{ uid := newUid, amount_usd := 0, note := "default", created_at := now }]) }
        (.ok (getUserProfile s4 newUid), s4)
    | _, _ => (.error .invalidInput, s)

/-- Model of `POST /signup` of `src/unnamed/part_001` (lines 243–306): the Firebase
Functions signup. Same validation, duplicate-email check, created records
and profile assembly as `/api/signup`; the HTTP layer differs only in the
error strings/status codes, which both fall in the `InvalidInput` /
`EmailExists` classes of the spec §7 taxonomy. -/
def signupFN (hashPassword : String → String) (s : Store)
    (email name password : Option String) (newUid : String) (now : ℕ) :
    Except ApiErr (Option Profile) × Store :=
  match email, password with
  | some e, some p =>
    -- `!email || !password || password.length < 6` (absent fields land in the
    -- catch-all arm below)
    if e = "" ∨ p = "" ∨ p.length < 6 then (.error .invalidInput, s)
    else
      match s.auths.find? (fun a => a.email == e) with
      | some _ => (.error .emailExists, s)
      | none =>
        let passwordHash := hashPassword p
        let s1 := { s with users :=
            (upsertBy (fun u => u.uid == newUid)
              { uid := newUid, email := e, name := name, created_at := now } s.users) }
        let s2 := { s1 with auths :=
            (upsertBy (fun a => a.uid == newUid)
              { uid := newUid, email := e, password_hash := passwordHash, created_at := now } s1.auths) }
        let s3 := { s2 with balances :=
            (upsertBy (fun b => b.uid == newUid)
              { uid := newUid, balance_usd := 0, wallet_balance_usd := 0, updated_at := now } s2.balances) }
        let s4 := { s3 with deposits :=
            (s3.deposits ++ [{ uid := newUid, amount_usd := 0, note := "default", created_at := now }]) }
        (.ok (getUserProfile s4 newUid), s4)
    | _, _ => (.error .invalidInput, s)

/-- Model of `POST /api/login` of `src/firestore.js` (lines 209–225): unknown email
answers 404 `not_found`; a hash mismatch answers 401 `invalid_credentials`;
success returns `db.getUserProfile(auth.uid)` (which is `null` when the
user row is missing). Read-only. -/
def loginFS (hashPassword : String → String) (s : Store)
    (email password : Option String) : Except ApiErr (Option Profile) :=
  match email, password with
  | some e, some p =>
    -- `!email || !password` (absent fields land in the catch-all arm below)
    if e = "" ∨ p = "" then .error .invalidInput
    else
      match s.auths.find? (fun a => a.email == e) with
      | none => .error .notFound
      | some auth =>
        if auth.password_hash == hashPassword p then .ok (getUserProfile s auth.uid)
        else .error .invalidCredentials
  | _, _ => .error .invalidInput

/-- Model of `POST /login` of `src/unnamed/part_001` (lines 309–347): an empty auth
query answers 401 `invalid_credentials` (where `/api/login` answers 404
`not_found`); otherwise the same hash comparison, then the profile is
assembled inline from the user and balance documents (degenerate — modelled
`none` — when the user document is absent). Read-only. -/
def loginFN (hashPassword : String → String) (s : Store)
    (email password : Option String) : Except ApiErr (Option Profile) :=
  match email, password with
  | some e, some p =>
    if e = "" ∨ p = "" then .error .invalidInput
    else
      match s.auths.find? (fun a => a.email == e) with
      | none => .error .invalidCredentials
      | some authData =>
        if authData.password_hash == hashPassword p then
          match s.users.find? (fun u => u.uid == authData.uid) with
          | none => .ok none
          | some u =>
            let bal := s.balances.find? (fun b => b.uid == authData.uid)
            .ok (some { uid := u.uid, email := u.email, name := u.name,
                        created_at := u.created_at,
                        balance_usd := match bal with | some b => b.balance_usd | none => 0,
                        wallet_balance_usd := match bal with | some b => b.wallet_balance_usd | none => 0 })
        else .error .invalidCredentials
  | _, _ => .error .invalidInput

/-- SQL `LIKE` matching restricted to the pattern forms the deposit-listing
query uses (a literal with `_` single-character wildcards, ending in `%`).
`_` matches any one character, a trailing `%` matches any suffix. -/
def likeMatch : List Char → List Char → Bool
  | ['%'], _ => true
  | [], s => s.isEmpty
  | _ :: _, [] => false
  | c :: ps, x :: xs => (c == '_' || c == x) && likeMatch ps xs

/-- Model of `GET /api/deposits/:uid` of `src/firestore.js` (lines 550–579):
`WHERE uid = $1 AND note NOT LIKE 'deposit_attempt_%' AND note NOT LIKE
'gas_fee_attempt_%' ORDER BY created_at DESC LIMIT 20`. -/
def listDepositsFS (s : Store) (uid : String) : List DepositRec :=
  ((s.deposits.filter (fun d =>
      d.uid == uid
        && !(likeMatch "deposit_attempt_%".toList d.note.toList)
        && !(likeMatch "gas_fee_attempt_%".toList d.note.toList))).mergeSort
    (fun a b => b.created_at ≤ a.created_at)).take 20

/-- Model of `GET /deposits/:uid` of `src/unnamed/part_001` (lines 464–484): the
Firebase Functions listing — `where uid == … orderBy created_at desc
limit 20`, with no `NOT LIKE` exclusion of attempt records. -/
def listDepositsFN (s : Store) (uid : String) : List DepositRec :=
  ((s.deposits.filter (fun d => d.uid == uid)).mergeSort
    (fun a b => b.created_at ≤ a.created_at)).take 20

/-- JS `x.toFixed(2)` on the non-negative prices the stock handler reports:
round to the nearest hundredth, ties away from zero. Used only in the API
response, never in what is stored. -/
def toFixed2 (x : ℚ) : ℚ := (⌊x * 100 + 1/2⌋ : ℤ) / 100

/-- Columns of the `stocks` table created by `db.js initDb`
(lines 91–99): `id TEXT PRIMARY KEY, symbol TEXT, name TEXT, data JSONB,
created_at TIMESTAMP`. -/
def stocksTableColumns : List String :=
  ["id", "symbol", "name", "data", "created_at"]

/-- Columns named by the `INSERT INTO stocks (…) VALUES … ON CONFLICT
(company) DO UPDATE …` statement of `/api/stocks/update-percentage`
(`src/firestore.js` lines 628–633). -/
def stockInsertColumns : List String :=
  ["company", "current_price", "percentage_change", "direction", "updated_at"]

/-- Postgres accepts an INSERT only if every named column exists in the
table; otherwise it raises `undefined_column`, which the handler's `catch`
turns into a 500 `internal_error` (`StoreFailure`). -/
def sqlInsertColumnsOk (tableCols insertCols : List String) : Bool :=
  insertCols.all (fun c => tableCols.contains c)

/-- Model of `POST /api/stocks/update-percentage` of `src/firestore.js`
(lines 606–644), running against the relational store: validate, compute
`newPrice = price * (1 ± pct/100)`, then run the INSERT above. The write is
gated on the schema actually having the named columns; the `initDb` schema
does not, so the write step raises and the handler reports `StoreFailure`
with the store unchanged. On a (hypothetical) matching schema the row would
be upserted keyed by company and the response would carry
`newPrice.toFixed(2)`. -/
def stockUpdateFS (s : Store) (company : String)
    (currentPrice percentage : Option ℚ) (direction : String) (now : ℕ) :
    Except ApiErr ℚ × Store :=
  match currentPrice, percentage with
  | some price, some pct =>
    if company = "" ∨ price ≤ 0 ∨ pct < 0 ∨ direction = "" then (.error .invalidParams, s)
    else if !(["up", "down"].contains direction) then (.error .invalidDirection, s)
    else
      let multiplier := if direction = "up" then 1 + pct / 100 else 1 - pct / 100
      let newPrice := price * multiplier
      if sqlInsertColumnsOk stocksTableColumns stockInsertColumns then
        (.ok (toFixed2 newPrice),
         { s with stocks := (upsertBy (fun q => q.company == company)
             { company := company, current_price := newPrice,
               percentage_change := pct, direction := direction, updated_at := now } s.stocks) })
      else (.error .storeFailure, s)
  | _, _ => (.error .invalidParams, s)

/-- Model of `POST /stocks/update-percentage` of `src/unnamed/part_001`
(lines 581–618), running against Firestore: same validation and price
formula; `doc(company).set({...})` upserts the quote keyed by company with
the full-precision `newPrice`; only the response applies `toFixed(2)`. -/
def stockUpdateFN (s : Store) (company : String)
    (currentPrice percentage : Option ℚ) (direction : String) (now : ℕ) :
    Except ApiErr ℚ × Store :=
  match currentPrice, percentage with
  | some price, some pct =>
    if company = "" ∨ price ≤ 0 ∨ pct < 0 ∨ direction = "" then (.error .invalidParams, s)
    else if !(["up", "down"].contains direction) then (.error .invalidDirection, s)
    else
      let multiplier := if direction = "up" then 1 + pct / 100 else 1 - pct / 100
      let newPrice := price * multiplier
      (.ok (toFixed2 newPrice),
       { s with stocks := (upsertBy (fun q => q.company == company)
           { company := company, current_price := newPrice,
             percentage_change := pct, direction := direction, updated_at := now } s.stocks) })
  | _, _ => (.error .invalidParams, s)

/-- Concrete stores used by the witnesses and counterexamples. -/
def emptyStore : Store :=
  { users := [], auths := [], balances := [], deposits := [], stocks := [] }

def c1Store : Store :=
  { users := [], auths := [],
    balances := [{ uid := "u1", balance_usd := 0, wallet_balance_usd := 100, updated_at := 0 }],
    deposits := [], stocks := [] }

def c2Store : Store :=
  { users := [], auths := [],
    balances := [{ uid := "u2", balance_usd := 3, wallet_balance_usd := 5, updated_at := 0 }],
    deposits := [], stocks := [] }

def c4Store : Store :=
  { users := [], auths := [],
    balances := [{ uid := "u2x", balance_usd := 10, wallet_balance_usd := 100, updated_at := 0 }],
    deposits := [], stocks := [] }

def c10Store : Store :=
  { users := [], auths := [],
    balances := [{ uid := "u", balance_usd := -1, wallet_balance_usd := 0, updated_at := 0 }],
    deposits := [], stocks := [] }

def c10bStore : Store :=
  { users := [], auths := [],
    balances := [{ uid := "u1", balance_usd := 0, wallet_balance_usd := 0, updated_at := 0 }],
    deposits := [], stocks := [] }

def c7Store : Store :=
  { users := [], auths := [], balances := [],
    deposits :=
      [{ uid := "u", amount_usd := 5, note := "deposit_attempt_btc_addr1", created_at := 3 }],
    stocks := [] }

/-- The store `signupFS (fun p => "h" ++ p) emptyStore (some "a@b.c") none
(some "secret7") "uid_x" 1` produces: one user, auth, balance and default
deposit record. -/
def c9Store : Store :=
  { users := [{ uid := "uid_x", email := "a@b.c", name := none, created_at := 1 }],
    auths := [{ uid := "uid_x", email := "a@b.c", password_hash := "hsecret7", created_at := 1 }],
    balances := [{ uid := "uid_x", balance_usd := 0, wallet_balance_usd := 0, updated_at := 1 }],
    deposits := [{ uid := "uid_x", amount_usd := 0, note := "default", created_at := 1 }],
    stocks := [] }

def c7bStore : Store :=
  { users := [], auths := [], balances := [],
    deposits := [{ uid := "u", amount_usd := 7, note := "withdraw", created_at := 2 }],
    stocks := [] }

/-! ### Helper lemmas -/

theorem find?_map_if (l : List α) (p : α → Bool) (f : α → α)
    (hf : ∀ a, p (f a) = p a) :
    (l.map (fun a => if p a then f a else a)).find? p = (l.find? p).map f := by
  induction l with
  | nil => rfl
  | cons x xs ih =>
    cases hx : p x with
    | true =>
      rw [List.map_cons, if_pos hx, List.find?_cons_of_pos _ (by rw [hf, hx]),
        List.find?_cons_of_pos _ hx]
      rfl
    | false =>
      rw [List.map_cons, if_neg (by simp [hx]), List.find?_cons_of_neg _ (by simp [hx]),
        List.find?_cons_of_neg _ (by simp [hx]), ih]

theorem find?_map_replace (l : List α) (p : α → Bool) (new : α)
    (hp : p new = true) (hany : l.any p = true) :
    (l.map (fun x => if p x then new else x)).find? p = some new := by
  induction l with
  | nil => simp at hany
  | cons x xs ih =>
    cases hx : p x with
    | true => rw [List.map_cons, if_pos hx, List.find?_cons_of_pos _ hp]
    | false =>
      have hany' : xs.any p = true := by simpa [hx] using hany
      rw [List.map_cons, if_neg (by simp [hx]), List.find?_cons_of_neg _ (by simp [hx]), ih hany']

theorem find?_q_map_replace (l : List α) (p q : α → Bool) (new : α)
    (hq : q new = true) (hnone : ∀ x ∈ l, ¬q x = true) (hany : l.any p = true) :
    (l.map (fun x => if p x then new else x)).find? q = some new := by
  induction l with
  | nil => simp at hany
  | cons x xs ih =>
    cases hx : p x with
    | true => rw [List.map_cons, if_pos hx, List.find?_cons_of_pos _ hq]
    | false =>
      have hany' : xs.any p = true := by simpa [hx] using hany
      have hqx : ¬q x = true := hnone x (by simp)
      rw [List.map_cons, if_neg (by simp [hx]), List.find?_cons_of_neg _ (by simpa using hqx),
        ih (fun y hy => hnone y (by simp [hy])) hany']

theorem find?_upsertBy_self (l : List α) (p : α → Bool) (new : α)
    (hp : p new = true) :
    (upsertBy p new l).find? p = some new := by
  unfold upsertBy
  cases hany : l.any p with
  | true => rw [if_pos rfl, find?_map_replace l p new hp hany]
  | false =>
    have hnone : l.find? p = none := by
      rw [List.find?_eq_none]
      intro x hx
      simpa using (List.any_eq_false.mp (by simp [hany])) x hx
    rw [if_neg (by simp [hany]), List.find?_append, hnone, Option.none_or,
      List.find?_cons_of_pos _ hp]

theorem find?_upsertBy_fresh (l : List α) (p q : α → Bool) (new : α)
    (hq : q new = true) (hnone : l.find? q = none) :
    (upsertBy p new l).find? q = some new := by
  unfold upsertBy
  have hnone' : ∀ x ∈ l, ¬q x = true := by
    rw [List.find?_eq_none] at hnone
    exact fun x hx => by simpa using hnone x hx
  cases hany : l.any p with
  | true => rw [if_pos rfl, find?_q_map_replace l p q new hq hnone' hany]
  | false =>
    rw [if_neg (by simp [hany]), List.find?_append, hnone, Option.none_or,
      List.find?_cons_of_pos _ hq]

theorem effectiveHome_ge (home : ℚ) (dOpt : Option ℚ) :
    home ≤ effectiveHome home dOpt := by
  cases dOpt with
  | none => exact le_refl _
  | some d =>
    by_cases hd : d > home
    · rw [effectiveHome, if_pos hd]
      exact le_of_lt hd
    · rw [effectiveHome, if_neg hd]

/-- Characterization of a successful `/api/withdraw`: with valid parameters,
an existing balance row and both sufficiency checks passing, the request
succeeds, the user's balance row becomes
`{balance_usd - (gas if gas > 0), effectiveHome - amount}`, exactly the
withdraw (and, when `gas > 0`, gas-fee) ledger rows are appended, and no
other table is touched. -/
theorem withdrawFS_ok (s : Store) (uid : String) (a g : ℚ) (dOpt : Option ℚ)
    (now : ℕ) (b : BalRec)
    (hfind : s.balances.find? (fun x => x.uid == uid) = some b)
    (huid : uid ≠ "") (ha : 0 < a) (hg : 0 ≤ g)
    (hhome : a ≤ effectiveHome b.wallet_balance_usd dOpt)
    (hgas : g ≤ b.balance_usd) :
    (withdrawFS s uid (some a) (some g) dOpt now).1 = .ok () ∧
    ((withdrawFS s uid (some a) (some g) dOpt now).2.balances.find?
        (fun x => x.uid == uid)) =
      some { uid := b.uid,
             balance_usd := if 0 < g then b.balance_usd - g else b.balance_usd,
             wallet_balance_usd := effectiveHome b.wallet_balance_usd dOpt - a,
             updated_at := now } ∧
    (withdrawFS s uid (some a) (some g) dOpt now).2.deposits =
      s.deposits ++ [{ uid := uid, amount_usd := -a, note := "withdraw", created_at := now }]
        ++ (if 0 < g then [{ uid := uid, amount_usd := -g, note := "gas_fee", created_at := now }] else []) ∧
    (withdrawFS s uid (some a) (some g) dOpt now).2.users = s.users ∧
    (withdrawFS s uid (some a) (some g) dOpt now).2.auths = s.auths := by
  have hval : ¬(uid = "" ∨ a ≤ 0 ∨ g < 0) := by
    push_neg
    exact ⟨huid, ha, hg⟩
  have hhome' : ¬ effectiveHome b.wallet_balance_usd dOpt < a := not_lt.mpr hhome
  have hgas' : ¬ b.balance_usd < g := not_lt.mpr hgas
  simp only [withdrawFS, hfind, if_neg hval, if_neg hhome', if_neg hgas']
  by_cases hbump : b.wallet_balance_usd < effectiveHome b.wallet_balance_usd dOpt <;>
    by_cases hgpos : (0:ℚ) < g
  · -- bump applied, gas fee charged
    simp only [withdrawFS, hfind, if_neg hval, if_neg hhome', if_neg hgas', gt_iff_lt,
      if_pos hbump, if_pos hgpos, updateBalance]
    refine ⟨trivial, ?_, by simp, trivial, trivial⟩
    rw [find?_map_if, find?_map_if, hfind]
    · simp only [Option.map_some', Option.some.injEq, BalRec.mk.injEq, true_and, and_true,
        eq_self_iff_true]
      ring
    · intro x
      rfl
    · intro x
      rfl
  · -- bump applied, no gas fee
    simp only [withdrawFS, hfind, if_neg hval, if_neg hhome', if_neg hgas', gt_iff_lt,
      if_pos hbump, if_neg hgpos, updateBalance]
    refine ⟨trivial, ?_, by simp, trivial, trivial⟩
    rw [find?_map_if, find?_map_if, hfind]
    · simp only [Option.map_some', Option.some.injEq, BalRec.mk.injEq, true_and, and_true,
        eq_self_iff_true]
      ring
    · intro x
      rfl
    · intro x
      rfl
  · -- no bump, gas fee charged
    have heq : effectiveHome b.wallet_balance_usd dOpt = b.wallet_balance_usd :=
      le_antisymm (not_lt.mp hbump) (effectiveHome_ge _ _)
    simp only [withdrawFS, hfind, if_neg hval, if_neg hhome', if_neg hgas', gt_iff_lt,
      if_neg hbump, if_pos hgpos, updateBalance]
    refine ⟨trivial, ?_, by simp, trivial, trivial⟩
    rw [find?_map_if, hfind]
    · simp only [Option.map_some', Option.some.injEq, BalRec.mk.injEq, true_and, and_true,
        eq_self_iff_true]
      rw [heq]
    · intro x
      rfl
  · -- no bump, no gas fee
    have heq : effectiveHome b.wallet_balance_usd dOpt = b.wallet_balance_usd :=
      le_antisymm (not_lt.mp hbump) (effectiveHome_ge _ _)
    simp only [withdrawFS, hfind, if_neg hval, if_neg hhome', if_neg hgas', gt_iff_lt,
      if_neg hbump, if_neg hgpos, updateBalance]
    refine ⟨trivial, ?_, by simp, trivial, trivial⟩
    rw [find?_map_if, hfind]
    · simp only [Option.map_some', Option.some.injEq, BalRec.mk.injEq, true_and, and_true,
        eq_self_iff_true]
      rw [heq]
    · intro x
      rfl

/-- Every failure path of `/api/withdraw` returns before any write, so the
store it reports alongside the error is the input store. -/
theorem withdrawFS_error_eq (s : Store) (uid : String)
    (amountUsd gasUsd displayedUsd : Option ℚ) (now : ℕ) (e : ApiErr) (t : Store)
    (h : withdrawFS s uid amountUsd gasUsd displayedUsd now = (.error e, t)) :
    t = s := by
  rcases amountUsd with _ | a
  · rcases gasUsd with _ | g <;>
      · simp only [withdrawFS] at h
        injection h with h1 h2
        exact h2.symm
  · rcases gasUsd with _ | g
    · simp only [withdrawFS] at h
      injection h with h1 h2
      exact h2.symm
    · simp only [withdrawFS] at h
      split at h
      · injection h with h1 h2
        exact h2.symm
      · split at h
        · injection h with h1 h2
          exact h2.symm
        · split at h
          · injection h with h1 h2
            exact h2.symm
          · split at h
            · injection h with h1 h2
              exact h2.symm
            · injection h with h1 h2
              exact Except.noConfusion h1

/-- With valid parameters and an existing balance row, a request whose
amount exceeds the effective home balance fails `insufficient_home_balance`
with the store untouched. -/
theorem withdrawFS_insufficientHome (s : Store) (uid : String) (a g : ℚ)
    (dOpt : Option ℚ) (now : ℕ) (b : BalRec)
    (hfind : s.balances.find? (fun x => x.uid == uid) = some b)
    (huid : uid ≠ "") (ha : 0 < a) (hg : 0 ≤ g)
    (hlt : effectiveHome b.wallet_balance_usd dOpt < a) :
    withdrawFS s uid (some a) (some g) dOpt now = (.error .insufficientHomeBalance, s) := by
  have hval : ¬(uid = "" ∨ a ≤ 0 ∨ g < 0) := by
    push_neg
    exact ⟨huid, ha, hg⟩
  simp only [withdrawFS, hfind, if_neg hval, if_pos hlt]

/-- With valid parameters, an existing balance row and a sufficient home
balance, a request whose gas exceeds the stored `balance_usd` fails
`insufficient_gas_balance` with the store untouched. -/
theorem withdrawFS_insufficientGas (s : Store) (uid : String) (a g : ℚ)
    (dOpt : Option ℚ) (now : ℕ) (b : BalRec)
    (hfind : s.balances.find? (fun x => x.uid == uid) = some b)
    (huid : uid ≠ "") (ha : 0 < a) (hg : 0 ≤ g)
    (hge : a ≤ effectiveHome b.wallet_balance_usd dOpt)
    (hlt : b.balance_usd < g) :
    withdrawFS s uid (some a) (some g) dOpt now = (.error .insufficientGasBalance, s) := by
  have hval : ¬(uid = "" ∨ a ≤ 0 ∨ g < 0) := by
    push_neg
    exact ⟨huid, ha, hg⟩
  simp only [withdrawFS, hfind, if_neg hval, if_neg (not_lt.mpr hge), if_pos hlt]

theorem withdrawFS_eq_withdrawFN (s : Store) (uid : String)
    (amountUsd gasUsd displayedUsd : Option ℚ) (now : ℕ) :
    withdrawFS s uid amountUsd gasUsd displayedUsd now =
      withdrawFN s uid amountUsd gasUsd displayedUsd now := rfl

/-- Inversion of a successful `/api/withdraw`: success implies the
parameters parsed as finite numbers and every validation and sufficiency
check passed. -/
theorem withdrawFS_ok_inv (s : Store) (uid : String) (aU gU dU : Option ℚ)
    (now : ℕ) (b : BalRec)
    (hfind : s.balances.find? (fun x => x.uid == uid) = some b)
    (s' : Store) (h : withdrawFS s uid aU gU dU now = (.ok (), s')) :
    ∃ a g, aU = some a ∧ gU = some g ∧ uid ≠ "" ∧ 0 < a ∧ 0 ≤ g ∧
      a ≤ effectiveHome b.wallet_balance_usd dU ∧ g ≤ b.balance_usd := by
  rcases aU with _ | a
  · simp [withdrawFS] at h
  rcases gU with _ | g
  · simp [withdrawFS] at h
  by_cases hval : uid = "" ∨ a ≤ 0 ∨ g < 0
  · simp [withdrawFS, if_pos hval] at h
  by_cases hhome : effectiveHome b.wallet_balance_usd dU < a
  · push_neg at hval
    rw [withdrawFS_insufficientHome s uid a g dU now b hfind hval.1 hval.2.1 hval.2.2 hhome] at h
    simp at h
  by_cases hgas : b.balance_usd < g
  · push_neg at hval
    rw [withdrawFS_insufficientGas s uid a g dU now b hfind hval.1 hval.2.1 hval.2.2
      (not_lt.mp hhome) hgas] at h
    simp at h
  push_neg at hval
  exact ⟨a, g, rfl, rfl, hval.1, hval.2.1, hval.2.2, not_lt.mp hhome, not_lt.mp hgas⟩

theorem effectiveHome_some (home d : ℚ) : effectiveHome home (some d) = max home d := by
  rcases le_or_lt d home with h | h
  · rw [effectiveHome, if_neg (not_lt.mpr h)]
    exact (max_eq_left h).symm
  · rw [effectiveHome, if_pos h]
    exact (max_eq_right (le_of_lt h)).symm

theorem effectiveHome_eq_self (home : ℚ) (dOpt : Option ℚ)
    (h : ∀ d, dOpt = some d → d ≤ home) : effectiveHome home dOpt = home := by
  cases dOpt with
  | none => rfl
  | some d => rw [effectiveHome, if_neg (not_lt.mpr (h d rfl))]

/-! ### Claim theorems -/

/-- C1: when `displayedUsd` is a finite number greater than the stored
`wallet_balance_usd`, the sufficiency check uses `displayedUsd` as the
effective home balance, and a successful withdrawal leaves
`wallet_balance_usd = displayedUsd - amount` (the bubble value is folded
into the real balance before the debit). -/
theorem withdraw_folds_displayed_bubble (s : Store) (uid : String) (a g d : ℚ)
    (now : ℕ) (b : BalRec)
    (hfind : s.balances.find? (fun x => x.uid == uid) = some b)
    (hd : b.wallet_balance_usd < d) :
    effectiveHome b.wallet_balance_usd (some d) = d ∧
    ∀ s' : Store, withdrawFS s uid (some a) (some g) (some d) now = (.ok (), s') →
      (s'.balances.find? (fun x => x.uid == uid)).map (fun x => x.wallet_balance_usd) =
        some (d - a) := by
  have heff : effectiveHome b.wallet_balance_usd (some d) = d := by
    rw [effectiveHome, if_pos hd]
  refine ⟨heff, fun s' h => ?_⟩
  obtain ⟨a', g', ha', hg', huid, hapos, hgnn, hhome, hgas⟩ :=
    withdrawFS_ok_inv s uid (some a) (some g) (some d) now b hfind s' h
  obtain rfl := Option.some.inj ha'
  obtain rfl := Option.some.inj hg'
  obtain ⟨-, hbal, -, -, -⟩ :=
    withdrawFS_ok s uid a g (some d) now b hfind huid hapos hgnn hhome hgas
  have hs' : s' = (withdrawFS s uid (some a) (some g) (some d) now).2 :=
    (congrArg Prod.snd h).symm
  rw [hs', hbal, Option.map_some', heff]

theorem withdraw_folds_displayed_bubble_witness :
    (withdrawFS c1Store "u1" (some 110) (some 0) (some 120) 7).1 = .ok () ∧
    ((withdrawFS c1Store "u1" (some 110) (some 0) (some 120) 7).2.balances.find?
        (fun x => x.uid == "u1")).map (fun x => x.wallet_balance_usd) = some 10 := by
  have hfind : c1Store.balances.find? (fun x => x.uid == "u1") =
      some { uid := "u1", balance_usd := 0, wallet_balance_usd := 100, updated_at := 0 } := rfl
  have hsucc : (withdrawFS c1Store "u1" (some 110) (some 0) (some 120) 7).1 = .ok () := by
    decide
  have hpair : withdrawFS c1Store "u1" (some 110) (some 0) (some 120) 7 =
      (.ok (), (withdrawFS c1Store "u1" (some 110) (some 0) (some 120) 7).2) :=
    Prod.ext_iff.mpr ⟨hsucc, rfl⟩
  have h := (withdraw_folds_displayed_bubble c1Store "u1" 110 0 120 7 _ hfind
      (by norm_num)).2 _ hpair
  refine ⟨hsucc, ?_⟩
  rw [h]
  norm_num

/-- C2: with valid parameters and an existing balance row, a request with
`effectiveHome < amount` fails `insufficient_home_balance`; one that passes
the home check but has `balance_usd < gas` fails
`insufficient_gas_balance`; and every failure of the operation (these
included) leaves the store exactly as it was. -/
theorem withdraw_failure_cases (s : Store) (uid : String) (a g : ℚ)
    (dOpt : Option ℚ) (now : ℕ) (b : BalRec)
    (hfind : s.balances.find? (fun x => x.uid == uid) = some b)
    (huid : uid ≠ "") (ha : 0 < a) (hg : 0 ≤ g) :
    (effectiveHome b.wallet_balance_usd dOpt < a →
      withdrawFS s uid (some a) (some g) dOpt now = (.error .insufficientHomeBalance, s)) ∧
    (a ≤ effectiveHome b.wallet_balance_usd dOpt → b.balance_usd < g →
      withdrawFS s uid (some a) (some g) dOpt now = (.error .insufficientGasBalance, s)) ∧
    (∀ (s₂ : Store) (uid₂ : String) (aU gU dU : Option ℚ) (now₂ : ℕ)
        (e : ApiErr) (t : Store),
      withdrawFS s₂ uid₂ aU gU dU now₂ = (.error e, t) → t = s₂) := by
  refine ⟨fun hlt => withdrawFS_insufficientHome s uid a g dOpt now b hfind huid ha hg hlt,
    fun hge hlt => withdrawFS_insufficientGas s uid a g dOpt now b hfind huid ha hg hge hlt,
    fun s₂ uid₂ aU gU dU now₂ e t h => withdrawFS_error_eq s₂ uid₂ aU gU dU now₂ e t h⟩

theorem withdraw_failure_cases_witness :
    withdrawFS c2Store "u2" (some 10) (some 0) none 3 =
      (.error .insufficientHomeBalance, c2Store) ∧
    withdrawFS c2Store "u2" (some 5) (some 4) none 3 =
      (.error .insufficientGasBalance, c2Store) := by
  have hfind : c2Store.balances.find? (fun x => x.uid == "u2") =
      some { uid := "u2", balance_usd := 3, wallet_balance_usd := 5, updated_at := 0 } := rfl
  refine ⟨(withdraw_failure_cases c2Store "u2" 10 0 none 3 _ hfind (by decide) (by norm_num)
      (by norm_num)).1 (by norm_num [effectiveHome]),
    (withdraw_failure_cases c2Store "u2" 5 4 none 3 _ hfind (by decide) (by norm_num)
      (by norm_num)).2.1 (by norm_num [effectiveHome]) (by norm_num)⟩

/-- C3: starting from a balance row with `balance_usd ≥ 0` and
`wallet_balance_usd ≥ 0`, any successful withdrawal leaves that user's
balance row with both fields still non-negative (the checks happen before
the mutation). -/
theorem withdraw_preserves_nonneg (s : Store) (uid : String)
    (aU gU dU : Option ℚ) (now : ℕ) (b : BalRec) (s' : Store)
    (hfind : s.balances.find? (fun x => x.uid == uid) = some b)
    (hb : 0 ≤ b.balance_usd) (_hw : 0 ≤ b.wallet_balance_usd)
    (h : withdrawFS s uid aU gU dU now = (.ok (), s')) :
    ∃ b', s'.balances.find? (fun x => x.uid == uid) = some b' ∧
      0 ≤ b'.balance_usd ∧ 0 ≤ b'.wallet_balance_usd := by
  obtain ⟨a, g, rfl, rfl, huid, hapos, hgnn, hhome, hgas⟩ :=
    withdrawFS_ok_inv s uid aU gU dU now b hfind s' h
  obtain ⟨-, hbal, -, -, -⟩ :=
    withdrawFS_ok s uid a g dU now b hfind huid hapos hgnn hhome hgas
  have hs' : s' = (withdrawFS s uid (some a) (some g) dU now).2 :=
    (congrArg Prod.snd h).symm
  refine ⟨_, hs' ▸ hbal, ?_, ?_⟩
  · by_cases hgpos : (0:ℚ) < g
    · simpa [if_pos hgpos] using sub_nonneg.mpr hgas
    · simpa [if_neg hgpos] using hb
  · exact sub_nonneg.mpr hhome

theorem withdraw_preserves_nonneg_witness :
    (0:ℚ) ≤ 3 ∧ (0:ℚ) ≤ 5 ∧
    ∃ b', (withdrawFS c2Store "u2" (some 2) (some 1) none 4).2.balances.find?
        (fun x => x.uid == "u2") = some b' ∧
      0 ≤ b'.balance_usd ∧ 0 ≤ b'.wallet_balance_usd := by
  have hfind : c2Store.balances.find? (fun x => x.uid == "u2") =
      some { uid := "u2", balance_usd := 3, wallet_balance_usd := 5, updated_at := 0 } := rfl
  have hsucc : (withdrawFS c2Store "u2" (some 2) (some 1) none 4).1 = .ok () := by decide
  have hpair : withdrawFS c2Store "u2" (some 2) (some 1) none 4 =
      (.ok (), (withdrawFS c2Store "u2" (some 2) (some 1) none 4).2) :=
    Prod.ext_iff.mpr ⟨hsucc, rfl⟩
  exact ⟨by norm_num, by norm_num,
    withdraw_preserves_nonneg c2Store "u2" (some 2) (some 1) none 4 _ _ hfind
      (by norm_num) (by norm_num) hpair⟩

/-- C4: from `wallet_balance_usd = 100`, `balance_usd = 10`, a withdrawal
of amount 30 with gas 5 (and no displayed value above 100) succeeds,
leaves `wallet_balance_usd = 70` and `balance_usd = 5`, and appends exactly
the two ledger rows `{-30, "withdraw"}` and `{-5, "gas_fee"}`. -/
theorem withdraw_30_5_yields_70_5 (s : Store) (uid : String) (dOpt : Option ℚ)
    (now t0 : ℕ)
    (hfind : s.balances.find? (fun x => x.uid == uid) =
      some { uid := uid, balance_usd := 10, wallet_balance_usd := 100, updated_at := t0 })
    (huid : uid ≠ "")
    (hd : ∀ d, dOpt = some d → d ≤ 100) :
    (withdrawFS s uid (some 30) (some 5) dOpt now).1 = .ok () ∧
    (withdrawFS s uid (some 30) (some 5) dOpt now).2.balances.find?
        (fun x => x.uid == uid) =
      some { uid := uid, balance_usd := 5, wallet_balance_usd := 70, updated_at := now } ∧
    (withdrawFS s uid (some 30) (some 5) dOpt now).2.deposits =
      s.deposits ++
        [{ uid := uid, amount_usd := -30, note := "withdraw", created_at := now },
         { uid := uid, amount_usd := -5, note := "gas_fee", created_at := now }] := by
  have heff : effectiveHome (100:ℚ) dOpt = 100 := effectiveHome_eq_self 100 dOpt hd
  obtain ⟨hok, hbal, hdep, -, -⟩ :=
    withdrawFS_ok s uid 30 5 dOpt now _ hfind huid (by norm_num) (by norm_num)
      (by
        show (30:ℚ) ≤ effectiveHome 100 dOpt
        rw [heff]
        norm_num)
      (by
        show (5:ℚ) ≤ (10:ℚ)
        norm_num)
  refine ⟨hok, ?_, ?_⟩
  · rw [hbal]
    norm_num [heff]
  · rw [hdep]
    norm_num

theorem withdraw_30_5_yields_70_5_witness :
    ("u2x" : String) ≠ "" ∧
    (withdrawFS c4Store "u2x" (some 30) (some 5) none 9).1 = .ok () ∧
    (withdrawFS c4Store "u2x" (some 30) (some 5) none 9).2.balances.find?
        (fun x => x.uid == "u2x") =
      some { uid := "u2x", balance_usd := 5, wallet_balance_usd := 70, updated_at := 9 } ∧
    (withdrawFS c4Store "u2x" (some 30) (some 5) none 9).2.deposits =
      c4Store.deposits ++
        [{ uid := "u2x", amount_usd := -30, note := "withdraw", created_at := 9 },
         { uid := "u2x", amount_usd := -5, note := "gas_fee", created_at := 9 }] := by
  have h := withdraw_30_5_yields_70_5 c4Store "u2x" none 9 0 rfl (by decide) (by simp)
  exact ⟨by decide, h.1, h.2.1, h.2.2⟩

/-- C10 counterexample: a uid with a balance row (`wallet_balance_usd = 0`,
`balance_usd = -1`), a finite amount 5 > 0, gas 0 and `displayedUsd =
amount` — the withdrawal does not succeed: it fails
`insufficient_gas_balance`, because the gas check `balance_usd < gas`
also runs when gas is 0. -/
theorem withdraw_displayed_counterexample :
    withdrawFS c10Store "u" (some 5) (some 0) (some 5) 0 =
      (.error .insufficientGasBalance, c10Store) := by
  have hfind : c10Store.balances.find? (fun x => x.uid == "u") =
      some { uid := "u", balance_usd := -1, wallet_balance_usd := 0, updated_at := 0 } := rfl
  exact withdrawFS_insufficientGas c10Store "u" 5 0 (some 5) 0 _ hfind (by decide)
    (by norm_num) (by norm_num) (by rw [effectiveHome_some]; exact le_max_right _ _)
    (by norm_num)

/-- C10 (amended): for every non-empty uid whose balance row has
`balance_usd ≥ 0`, every finite amount > 0 with gas 0 and
`displayedUsd = amount`, the withdrawal succeeds regardless of the stored
`wallet_balance_usd` (even 0 or negative), leaving `wallet_balance_usd =
max(stored, amount) - amount`; the handler checks no admin key or session
on this path. -/
theorem withdraw_displayed_amount_succeeds (s : Store) (uid : String) (a : ℚ)
    (now : ℕ) (b : BalRec)
    (hfind : s.balances.find? (fun x => x.uid == uid) = some b)
    (huid : uid ≠ "") (ha : 0 < a) (hb : 0 ≤ b.balance_usd) :
    (withdrawFS s uid (some a) (some 0) (some a) now).1 = .ok () ∧
    ((withdrawFS s uid (some a) (some 0) (some a) now).2.balances.find?
        (fun x => x.uid == uid)).map (fun x => x.wallet_balance_usd) =
      some (max b.wallet_balance_usd a - a) := by
  have hhome : a ≤ effectiveHome b.wallet_balance_usd (some a) := by
    rw [effectiveHome_some]
    exact le_max_right _ _
  obtain ⟨hok, hbal, -, -, -⟩ :=
    withdrawFS_ok s uid a 0 (some a) now b hfind huid ha (le_refl 0) hhome hb
  refine ⟨hok, ?_⟩
  rw [hbal, Option.map_some', effectiveHome_some]

theorem withdraw_displayed_amount_succeeds_witness :
    ("u1" : String) ≠ "" ∧ (0:ℚ) < 5 ∧ (0:ℚ) ≤ 0 ∧
    (withdrawFS c10bStore "u1" (some 5) (some 0) (some 5) 2).1 = .ok () ∧
    ((withdrawFS c10bStore "u1" (some 5) (some 0) (some 5) 2).2.balances.find?
        (fun x => x.uid == "u1")).map (fun x => x.wallet_balance_usd) = some 0 := by
  have h := withdraw_displayed_amount_succeeds c10bStore "u1" 5 2
    { uid := "u1", balance_usd := 0, wallet_balance_usd := 0, updated_at := 0 }
    rfl (by decide) (by norm_num) (by norm_num)
  refine ⟨by decide, by norm_num, by norm_num, h.1, ?_⟩
  rw [h.2]
  norm_num

/-- C5: signup with a missing email, a missing password, or a password of
fewer than 6 characters fails `invalid_input`, and the store — users,
auth credentials, balances and deposits alike — is exactly what it was. -/
theorem signup_invalid_input (hash : String → String) (s : Store)
    (email name password : Option String) (newUid : String) (now : ℕ)
    (h : email = none ∨ password = none ∨ ∃ p, password = some p ∧ p.length < 6) :
    signupFS hash s email name password newUid now = (.error .invalidInput, s) := by
  rcases h with rfl | rfl | ⟨p, rfl, hp⟩
  · cases password <;> rfl
  · cases email <;> rfl
  · cases email with
    | none => rfl
    | some e => simp only [signupFS, if_pos (Or.inr (Or.inr hp))]

theorem signup_invalid_input_witness :
    signupFS (fun p => p) emptyStore (some "a@b.c") none (some "abc") "uid_1" 0 =
      (.error .invalidInput, emptyStore) :=
  signup_invalid_input (fun p => p) emptyStore (some "a@b.c") none (some "abc") "uid_1" 0
    (Or.inr (Or.inr ⟨"abc", rfl, by decide⟩))

/-- C9: whenever signup succeeds, logging in with the same email and
password against the post-signup store succeeds and returns the same
profile, whose uid is the uid signup generated (the password hash is the
same deterministic function applied to the same string). -/
theorem signup_then_login_same_uid (hash : String → String) (s : Store)
    (email name password : Option String) (newUid : String) (now : ℕ)
    (prof? : Option Profile) (s' : Store)
    (h : signupFS hash s email name password newUid now = (.ok prof?, s')) :
    ∃ prof, prof? = some prof ∧
      loginFS hash s' email password = .ok (some prof) ∧ prof.uid = newUid := by
  rcases email with _ | e
  · simp [signupFS] at h
  rcases password with _ | p
  · simp [signupFS] at h
  by_cases hval : e = "" ∨ p = "" ∨ p.length < 6
  · simp only [signupFS, if_pos hval] at h
    exact absurd (congrArg Prod.fst h) (by simp)
  cases hfindAuth : s.auths.find? (fun a => a.email == e) with
  | some a =>
    simp only [signupFS, if_neg hval, hfindAuth] at h
    exact absurd (congrArg Prod.fst h) (by simp)
  | none =>
    simp only [signupFS, if_neg hval, hfindAuth] at h
    push_neg at hval
    obtain ⟨he, hpne, hlen⟩ := hval
    have h1 := congrArg Prod.fst h
    have h2 := congrArg Prod.snd h
    simp only at h1 h2
    subst h2
    have hu := find?_upsertBy_self s.users (fun u => u.uid == newUid)
      { uid := newUid, email := e, name := name, created_at := now } (by simp)
    have hb := find?_upsertBy_self s.balances (fun b => b.uid == newUid)
      { uid := newUid, balance_usd := 0, wallet_balance_usd := 0, updated_at := now } (by simp)
    have hau := find?_upsertBy_fresh s.auths (fun a => a.uid == newUid)
      (fun a => a.email == e)
      { uid := newUid, email := e, password_hash := hash p, created_at := now }
      (by simp) hfindAuth
    have hprof := Except.ok.inj h1
    refine ⟨{ uid := newUid, email := e, name := name, created_at := now,
              balance_usd := 0, wallet_balance_usd := 0 }, ?_, ?_, rfl⟩
    · rw [← hprof]
      simp only [getUserProfile, hu, hb]
    · simp only [loginFS, if_neg (by push_neg; exact ⟨he, hpne⟩ :
        ¬(e = "" ∨ p = "")), hau, beq_self_eq_true, if_true]
      simp only [getUserProfile, hu, hb]

theorem signup_then_login_same_uid_witness :
    ∃ prof,
      loginFS (fun p => "h" ++ p) c9Store (some "a@b.c") (some "secret7") =
        .ok (some prof) ∧
      prof.uid = "uid_x" := by
  have hsign : signupFS (fun p => "h" ++ p) emptyStore (some "a@b.c") none (some "secret7")
      "uid_x" 1 =
      (.ok (some ({ uid := "uid_x", email := "a@b.c", name := none, created_at := 1, balance_usd := 0, wallet_balance_usd := 0 } : Profile)), c9Store) := rfl
  obtain ⟨prof, -, hl, hu⟩ := signup_then_login_same_uid (fun p => "h" ++ p) emptyStore
    (some "a@b.c") none (some "secret7") "uid_x" 1 _ _ hsign
  exact ⟨prof, hl, hu⟩

/-- C6 (amended): the two servers agree on withdraw for every input and on
signup for every input (with failures compared by their spec §7 taxonomy
class), and on login whenever the email is registered; the counterexample
shows they disagree on login with an unregistered email. -/
theorem dual_backend_agreement :
    (∀ (s : Store) (uid : String) (aU gU dU : Option ℚ) (now : ℕ),
      withdrawFS s uid aU gU dU now = withdrawFN s uid aU gU dU now) ∧
    (∀ (hash : String → String) (s : Store) (email name password : Option String)
        (newUid : String) (now : ℕ),
      signupFS hash s email name password newUid now =
        signupFN hash s email name password newUid now) ∧
    (∀ (hash : String → String) (s : Store) (e : String) (password : Option String)
        (a : AuthRec),
      s.auths.find? (fun x => x.email == e) = some a →
      loginFS hash s (some e) password = loginFN hash s (some e) password) := by
  refine ⟨fun _ _ _ _ _ _ => rfl, fun _ _ _ _ _ _ _ => rfl,
    fun hash s e password a hfound => ?_⟩
  rcases password with _ | p
  · rfl
  by_cases hval : e = "" ∨ p = ""
  · simp only [loginFS, loginFN, if_pos hval]
  simp only [loginFS, loginFN, if_neg hval, hfound]
  cases hcmp : a.password_hash == hash p with
  | false => simp only [Bool.false_eq_true, if_neg, reduceIte]
  | true =>
    simp only [if_true, reduceIte, getUserProfile]
    cases hu : s.users.find? (fun u => u.uid == a.uid) <;> simp only [hu]

theorem dual_backend_agreement_witness :
    withdrawFS c1Store "u1" (some 10) (some 0) none 3 =
      withdrawFN c1Store "u1" (some 10) (some 0) none 3 ∧
    loginFS (fun p => p) c9Store (some "a@b.c") (some "secret7") =
      loginFN (fun p => p) c9Store (some "a@b.c") (some "secret7") := by
  refine ⟨(dual_backend_agreement).1 c1Store "u1" (some 10) (some 0) none 3, ?_⟩
  exact (dual_backend_agreement).2.2 (fun p => p) c9Store "a@b.c" (some "secret7")
    { uid := "uid_x", email := "a@b.c", password_hash := "hsecret7", created_at := 1 } rfl

/-- C6 counterexample: a login with an email no auth record has — the
relational server (`/api/login`) answers 404 `not_found` while the
document-store server (`/login`) answers 401 `invalid_credentials`, so the
two backends do not return the same tagged failure for every input. -/
theorem dual_backend_counterexample :
    loginFS (fun p => p) emptyStore (some "a@b.c") (some "password1") = .error .notFound ∧
    loginFN (fun p => p) emptyStore (some "a@b.c") (some "password1") =
      .error .invalidCredentials ∧
    ApiErr.notFound ≠ ApiErr.invalidCredentials := by
  refine ⟨by decide, by decide, by decide⟩

/-- SQL `LIKE 'deposit_attempt_%'` matches every string that literally
starts with `deposit_attempt_` (the `_` wildcards in the pattern also match
the literal underscores). -/
theorem likeMatch_deposit_attempt (t : List Char) :
    likeMatch "deposit_attempt_%".toList ("deposit_attempt_".toList ++ t) = true := by
  cases t <;> rfl

/-- SQL `LIKE 'gas_fee_attempt_%'` matches every string that literally
starts with `gas_fee_attempt_`. -/
theorem likeMatch_gas_fee_attempt (t : List Char) :
    likeMatch "gas_fee_attempt_%".toList ("gas_fee_attempt_".toList ++ t) = true := by
  cases t <;> rfl

/-- The most-recent-first order produced by `ORDER BY created_at DESC` /
`orderBy('created_at', 'desc')`, after `LIMIT`/`take`. -/
theorem pairwise_desc_take (l : List DepositRec) (n : ℕ) :
    List.Pairwise (fun a b => b.created_at ≤ a.created_at)
      ((l.mergeSort (fun a b => b.created_at ≤ a.created_at)).take n) := by
  have hs : List.Pairwise
      (fun a b => (decide (b.created_at ≤ a.created_at)) = true)
      (l.mergeSort (fun a b => decide (b.created_at ≤ a.created_at))) :=
    List.sorted_mergeSort
      (fun a b c hab hbc => by
        simp only [decide_eq_true_eq] at hab hbc ⊢
        exact le_trans hbc hab)
      (fun a b => by simpa using Nat.le_total b.created_at a.created_at) l
  exact List.Pairwise.sublist (List.take_sublist _ _) (hs.imp (fun h => by simpa using h))

/-- C7 (amended): the relational listing (`/api/deposits/:uid`) returns at
most 20 records, most recent first, all belonging to the uid and none with
an attempt-prefixed note; the Firebase Functions listing (`/deposits/:uid`)
returns at most 20 of the uid's records, most recent first, but applies no
attempt-note exclusion. -/
theorem deposit_listing_filters (s : Store) (uid : String) :
    ((listDepositsFS s uid).length ≤ 20 ∧
     List.Pairwise (fun a b => b.created_at ≤ a.created_at) (listDepositsFS s uid) ∧
     ∀ d ∈ listDepositsFS s uid, d.uid = uid ∧
       (¬ ∃ t, d.note.toList = "deposit_attempt_".toList ++ t) ∧
       (¬ ∃ t, d.note.toList = "gas_fee_attempt_".toList ++ t)) ∧
    ((listDepositsFN s uid).length ≤ 20 ∧
     List.Pairwise (fun a b => b.created_at ≤ a.created_at) (listDepositsFN s uid) ∧
     ∀ d ∈ listDepositsFN s uid, d.uid = uid) := by
  refine ⟨⟨List.length_take_le _ _, pairwise_desc_take _ _, fun d hd => ?_⟩,
    ⟨List.length_take_le _ _, pairwise_desc_take _ _, fun d hd => ?_⟩⟩
  · have h1 := (List.take_sublist 20 _).subset hd
    have h2 := List.mem_mergeSort.mp h1
    have h3 := (List.mem_filter.mp h2).2
    simp only [Bool.and_eq_true, Bool.not_eq_true', beq_iff_eq] at h3
    obtain ⟨⟨hdu, hl1⟩, hl2⟩ := h3
    refine ⟨hdu, ?_, ?_⟩
    · rintro ⟨t, ht⟩
      rw [ht, likeMatch_deposit_attempt] at hl1
      exact Bool.noConfusion hl1
    · rintro ⟨t, ht⟩
      rw [ht, likeMatch_gas_fee_attempt] at hl2
      exact Bool.noConfusion hl2
  · have h1 := (List.take_sublist 20 _).subset hd
    have h2 := List.mem_mergeSort.mp h1
    have h3 := (List.mem_filter.mp h2).2
    simpa using h3

theorem deposit_listing_filters_witness :
    (listDepositsFS c7bStore "u").length ≤ 20 ∧
    ({ uid := "u", amount_usd := 7, note := "withdraw", created_at := 2 } : DepositRec).uid
      = "u" ∧
    ¬ ∃ t, ("withdraw".toList = "deposit_attempt_".toList ++ t) := by
  have hfil : c7bStore.deposits.filter (fun d => d.uid == "u"
      && !(likeMatch "deposit_attempt_%".toList d.note.toList)
      && !(likeMatch "gas_fee_attempt_%".toList d.note.toList)) =
      [{ uid := "u", amount_usd := 7, note := "withdraw", created_at := 2 }] := by decide
  have hlist : listDepositsFS c7bStore "u" =
      [{ uid := "u", amount_usd := 7, note := "withdraw", created_at := 2 }] := by
    rw [listDepositsFS, hfil, List.mergeSort_singleton]
    rfl
  have h := deposit_listing_filters c7bStore "u"
  have hmem : ({ uid := "u", amount_usd := 7, note := "withdraw", created_at := 2 } :
      DepositRec) ∈ listDepositsFS c7bStore "u" := by
    rw [hlist]
    exact List.mem_singleton_self _
  obtain ⟨h1, h2, h3⟩ := h.1.2.2 _ hmem
  exact ⟨h.1.1, h1, h2⟩

/-- C7 counterexample: a store holding one record whose note starts with
`deposit_attempt_` — the Firebase Functions listing returns it (it orders
and limits but applies no attempt-note exclusion). -/
theorem deposit_listing_counterexample :
    listDepositsFN c7Store "u" =
      [{ uid := "u", amount_usd := 5, note := "deposit_attempt_btc_addr1", created_at := 3 }] ∧
    "deposit_attempt_btc_addr1".toList = "deposit_attempt_".toList ++ "btc_addr1".toList := by
  constructor
  · have hfil : c7Store.deposits.filter (fun d => d.uid == "u") =
        [{ uid := "u", amount_usd := 5, note := "deposit_attempt_btc_addr1", created_at := 3 }] := by
      decide
    rw [listDepositsFN, hfil, List.mergeSort_singleton]
    rfl
  · decide

/-- C8: `stocks/update-percentage("Acme", 100, 10, up)` — the
document-store server upserts the quote keyed by company with the exact
new price `100 × (1 + 10/100) = 110` and only the response applies
`toFixed(2)`; the relational server's INSERT names columns
(`company`, `current_price`, …) that the `initDb` stocks table
(`id`, `symbol`, `name`, `data`, `created_at`) does not have, so its write
always fails (`internal_error`) and nothing is stored. -/
theorem stock_update_acme :
    stockUpdateFN emptyStore "Acme" (some 100) (some 10) "up" 9 =
      (.ok (toFixed2 110),
        { emptyStore with stocks := [{ company := "Acme", current_price := 110, percentage_change := 10, direction := "up", updated_at := 9 }] }) ∧
    toFixed2 110 = 110 ∧
    sqlInsertColumnsOk stocksTableColumns stockInsertColumns = false ∧
    stockUpdateFS emptyStore "Acme" (some 100) (some 10) "up" 9 =
      (.error .storeFailure, emptyStore) := by
  have hfl : ⌊(110:ℚ) * 100 + 1/2⌋ = (11000:ℤ) := by
    rw [Int.floor_eq_iff]
    constructor <;> norm_num
  have htf : toFixed2 (110:ℚ) = 110 := by
    rw [toFixed2, hfl]
    norm_num
  refine ⟨?_, htf, by decide, ?_⟩
  · rw [stockUpdateFN]
    rw [if_neg (by decide), if_neg (by decide), if_pos rfl]
    norm_num [upsertBy, emptyStore]
  · rw [stockUpdateFS]
    rw [if_neg (by decide), if_neg (by decide), if_neg (by decide)]

end Equinox
